import Mathlib

/-!
Verification of the WEB2PG full-page screenshot capture core.

The definitions below are a shallow embedding of the JavaScript source:
* `stitchScreenshots` in `src/extension/offscreen/offscreen.js`
  (tile compositor: images decode asynchronously, each `onload` draws at a
  shared running offset `currentY` and bumps it by the decoded height;
  `onerror` rejects; the promise resolves when `loadedCount` reaches the
  number of screenshots, settle-once semantics),
* `handleCaptureScreenshot` / `captureSingleScreenshot` /
  `captureFullPageWithScrolling` in
  `src/extension/background/service-worker.js`
  (capture orchestrator: dimension probe, single-shot vs scroll-and-stitch
  path, per-tile retry with exponential backoff, scroll restoration),
* `ensureOffscreenDocument` in the same file
  (single-flight provisioning of the offscreen compositor document,
  guarded by the module-level booleans `offscreenDocumentCreating` and
  `offscreenDocumentCreated`, with a 50 × 100 ms polling wait).
-/

namespace Web2PG

/-! ## Definitions: shallow embedding of the source

The resource-manager model (`ensureOffscreenDocument`) deserves a note:
it is guarded by the module-level booleans `offscreenDocumentCreated`
and `offscreenDocumentCreating`.  The service worker is single-threaded,
so code between `await` points runs atomically and a call is a sequence
of atomic slices.  Two callers A and B are modelled; a schedule chooses
which caller's next slice runs.  The claims are about two *overlapping*
calls, so an `entry` slice that would only run after the other call has
already returned is modelled as a no-op (that run simply never starts
the second, non-overlapping call). -/

/-- State of the stitching promise while image `onload` / `onerror`
callbacks fire.  `drawn` records, in firing order, `(index, y, height)` for
every `drawImage(img, 0, currentY, width, img.height)` call; `settled`
keeps the first settlement of the promise (`Except.error i` for
`reject(Failed to load screenshot i)`, `Except.ok ()` for `resolve`). -/
structure StitchState where
  currentY : Nat
  loaded : Nat
  drawn : List (Nat × Nat × Nat)
  settled : Option (Except Nat Unit)
  deriving Repr

def initStitch : StitchState :=
  { currentY := 0, loaded := 0, drawn := [], settled := none }

/-- A promise settles only once: later `resolve`/`reject` calls are
no-ops. -/
def settleOnce (s : Option (Except Nat Unit)) (v : Except Nat Unit) :
    Option (Except Nat Unit) :=
  match s with
  | some x => some x
  | none => some v

/-- Decode result of screenshot `j`: `some h` means the image decodes
with height `h`; `none` means its `onerror` fires. -/
def decodeOf (outcomes : List (Option Nat)) (j : Nat) : Option Nat :=
  outcomes.getD j none

/-- One image callback firing for screenshot `j`: on `onload` it draws at
`currentY`, advances `currentY` by the decoded height, bumps
`loadedCount`, and resolves if every screenshot is loaded; on `onerror`
it rejects with index `j`.  `n` is `screenshots.length`. -/
def stitchStep (outcomes : List (Option Nat)) (n : Nat)
    (s : StitchState) (j : Nat) : StitchState :=
  match decodeOf outcomes j with
  | none => { s with settled := settleOnce s.settled (Except.error j) }
  | some h =>
      let s' : StitchState :=
        { s with drawn := s.drawn ++ [(j, s.currentY, h)]
                 currentY := s.currentY + h
                 loaded := s.loaded + 1 }
      if s'.loaded = n then
        { s' with settled := settleOnce s'.settled (Except.ok ()) }
      else s'

/-- Run the compositor: the callbacks of the screenshots fire in
`order` (the asynchronous decode-completion order, some permutation of
`0, …, n-1`). -/
def stitchRun (outcomes : List (Option Nat)) (n : Nat)
    (order : List Nat) : StitchState :=
  order.foldl (stitchStep outcomes n) initStitch

/-- `drawnY st j` is the vertical offset screenshot `j` was drawn at, if
it was drawn. -/
def drawnY (st : StitchState) (j : Nat) : Option Nat :=
  (st.drawn.find? (fun e => e.1 = j)).map (fun e => e.2.1)

/-- Observable events of a capture session: scroll mutations performed by
the injected `scrollToPosition` during the tile loop (`scrollSet`),
`sleep` waits, `chrome.tabs.captureVisibleTab` invocations
(`captureCall`), the message to the offscreen stitcher (`stitchCall`) and
scroll-restoration mutations (`restoreSet`). -/
inductive Ev
  | scrollSet (y : Nat)
  | wait (ms : Nat)
  | captureCall
  | stitchCall
  | restoreSet (y : Nat)
  deriving Repr, DecidableEq

/-- Errors thrown inside `captureFullPageWithScrolling`:
a failed `executeScript(scrollToPosition)` for tile `i`, a
`captureVisibleTab` failure (after retries, carrying the id of the last
failed call), a failed stitch response, and a failed scroll
restoration. -/
inductive CaptureError
  | scrollFailed (i : Nat)
  | captureFailed (callId : Nat)
  | stitchFailed
  | restoreFailed
  deriving Repr, DecidableEq

/-- Result of `getPageDimensions` injected into the page. -/
structure Dims where
  fullHeight : Nat
  viewportWidth : Nat
  viewportHeight : Nat
  scrollY : Nat
  deriving Repr, DecidableEq

/-- One entry of the `screenshots` array: the captured image (abstracted
to the id of the `captureVisibleTab` call that produced it), the tile
index, and the scroll offset it was captured at. -/
structure Tile where
  dataUrl : Nat
  index : Nat
  scrollY : Nat
  deriving Repr, DecidableEq

/-- Environment: outcomes of the host primitives.  `captureOk k` is
whether the `k`-th `captureVisibleTab` call of the session succeeds,
`scrollOk i` whether the tile-loop scroll for tile `i` succeeds,
`restoreOk j` whether the `j`-th restoration scroll succeeds, and
`stitch` the offscreen document's response to `stitchScreenshots`
(`none` = failure response). -/
structure CaptureEnv where
  captureOk : Nat → Bool
  scrollOk : Nat → Bool
  restoreOk : Nat → Bool
  stitch : List Tile → Option Nat

/-- Orchestrator state threaded through a session: current scroll
position of the page, the event trace, counters for capture and
restoration calls, and the `screenshots` array. -/
structure OrchSt where
  pos : Nat
  events : List Ev
  capIdx : Nat
  resIdx : Nat
  tiles : List Tile
  deriving Repr

def initOrch (y : Nat) : OrchSt :=
  { pos := y, events := [], capIdx := 0, resIdx := 0, tiles := [] }

/-- `Math.ceil(fullHeight / viewportHeight)`. -/
def numScreenshots (dims : Dims) : Nat :=
  (dims.fullHeight + dims.viewportHeight - 1) / dims.viewportHeight

/-- The `while (retries < maxRetries)` capture-retry loop, entered with
fuel `maxRetries = 3`.  A successful call exits the loop with the
captured image; a failure either rethrows (when `retries >= maxRetries`)
or waits `min(1000 * 2^(retries-1), 3000)` ms before the next attempt. -/
def captureRetry (env : CaptureEnv) :
    Nat → OrchSt → Except (CaptureError × OrchSt) (Nat × OrchSt)
  | 0, st => .error (.captureFailed st.capIdx, st)
  | f + 1, st =>
      let id := st.capIdx
      let st1 : OrchSt :=
        { st with events := st.events ++ [.captureCall], capIdx := id + 1 }
      if env.captureOk id then .ok (id, st1)
      else if f = 0 then .error (.captureFailed id, st1)
      else captureRetry env f
        { st1 with events :=
            st1.events ++ [.wait (min (1000 * 2 ^ (2 - f)) 3000)] }

/-- The `for (let i = 0; i < numScreenshots; i++)` loop body: scroll to
`i * viewportHeight`, wait 500 ms for the page to settle, capture with
retry, record the tile, and wait 1100 ms between tiles to respect the
capture rate limit. -/
def tileLoop (env : CaptureEnv) (vh n : Nat) :
    List Nat → OrchSt → Except (CaptureError × OrchSt) OrchSt
  | [], st => .ok st
  | i :: rest, st =>
      if env.scrollOk i then
        let st1 : OrchSt :=
          { st with pos := i * vh
                    events := st.events ++ [.scrollSet (i * vh), .wait 500] }
        match captureRetry env 3 st1 with
        | .error e => .error e
        | .ok (img, st2) =>
            let st3 : OrchSt :=
              { st2 with tiles := st2.tiles ++ [⟨img, i, i * vh⟩] }
            let st4 : OrchSt :=
              if i < n - 1 then
                { st3 with events := st3.events ++ [.wait 1100] }
              else st3
            tileLoop env vh n rest st4
      else .error (.scrollFailed i, st)

/-- One `executeScript(scrollToPosition, originalScrollY)` restoration
call: on success the page is back at `origY`; on failure the position is
unchanged and the caller sees the failure. -/
def restoreAttempt (env : CaptureEnv) (origY : Nat) (st : OrchSt) :
    Bool × OrchSt :=
  if env.restoreOk st.resIdx then
    (true, { st with pos := origY
                     resIdx := st.resIdx + 1
                     events := st.events ++ [.restoreSet origY] })
  else (false, { st with resIdx := st.resIdx + 1 })

/-- `captureFullPageWithScrolling`: run the tile loop, stitch, restore
the original scroll position, and return the stitched image.  On any
error thrown in the `try` block (loop failure, stitch failure, or a
failed success-path restoration) the `catch` block attempts a
restoration, swallows that attempt's own failure, and rethrows the
caught error. -/
def captureFullPageWithScrolling (env : CaptureEnv) (dims : Dims)
    (st0 : OrchSt) : Except CaptureError Nat × OrchSt :=
  let vh := dims.viewportHeight
  let n := numScreenshots dims
  let origY := dims.scrollY
  match tileLoop env vh n (List.range n) st0 with
  | .error (e, st) =>
      let r := restoreAttempt env origY st
      (.error e, r.2)
  | .ok st =>
      let st1 : OrchSt := { st with events := st.events ++ [.stitchCall] }
      match env.stitch st.tiles with
      | none =>
          let r := restoreAttempt env origY st1
          (.error .stitchFailed, r.2)
      | some img =>
          let r := restoreAttempt env origY st1
          if r.1 then (.ok img, r.2)
          else
            let r2 := restoreAttempt env origY r.2
            (.error .restoreFailed, r2.2)

/-- `captureSingleScreenshot`: a single `captureVisibleTab` raced
against a 5 s timeout; no scrolling, no stitching. -/
def captureSingleScreenshot (env : CaptureEnv) (st : OrchSt) :
    Option Nat × OrchSt :=
  let id := st.capIdx
  let st1 : OrchSt :=
    { st with events := st.events ++ [.captureCall], capIdx := id + 1 }
  (if env.captureOk id then some id else none, st1)

/-- `handleCaptureScreenshot`: probe the page dimensions (`probe = none`
models a failed probe), pick the single-shot or scrolling path, and turn
any error into a `null` result (`screenshot is optional`). -/
def handleCaptureScreenshot (env : CaptureEnv) (probe : Option Dims) :
    Option Nat × OrchSt :=
  match probe with
  | none => (none, initOrch 0)
  | some dims =>
      if dims.fullHeight ≤ dims.viewportHeight then
        captureSingleScreenshot env (initOrch dims.scrollY)
      else
        match captureFullPageWithScrolling env dims
            (initOrch dims.scrollY) with
        | (.ok img, st) => (some img, st)
        | (.error _, st) => (none, st)

/-- The `captureScreenshot` branch of the message listener: the handler's
promise is awaited and the response always reports `success: true` with
the (possibly null) data URL, because `handleCaptureScreenshot` catches
every pipeline error and resolves with `null`. -/
structure MsgResponse where
  success : Bool
  dataUrl : Option Nat
  deriving Repr, DecidableEq

def captureScreenshotResponse (env : CaptureEnv) (probe : Option Dims) :
    MsgResponse :=
  { success := true, dataUrl := (handleCaptureScreenshot env probe).1 }

/-! ### Event observations -/

def isCaptureCall : Ev → Bool
  | .captureCall => true
  | _ => false

def isScrollSet : Ev → Bool
  | .scrollSet _ => true
  | _ => false

def isStitchCall : Ev → Bool
  | .stitchCall => true
  | _ => false

def isRestoreSet : Ev → Bool
  | .restoreSet _ => true
  | _ => false

def countEv (p : Ev → Bool) (es : List Ev) : Nat := (es.filter p).length

/-- The scroll offsets set by the tile loop, in order. -/
def scrollTargets (es : List Ev) : List Nat :=
  es.filterMap fun e =>
    match e with
    | .scrollSet y => some y
    | _ => none

/-- The backoff waits recorded by the retry loop, in order. -/
def waitsIn (es : List Ev) : List Nat :=
  es.filterMap fun e =>
    match e with
    | .wait ms => some ms
    | _ => none

/-- The state produced by one successful iteration of the tile loop for
tile `i`. -/
def tileStepSt (vh n i : Nat) (st : OrchSt) : OrchSt :=
  { pos := i * vh
    events := st.events ++ ([.scrollSet (i * vh), .wait 500, .captureCall]
      ++ if i < n - 1 then [.wait 1100] else [])
    capIdx := st.capIdx + 1
    resIdx := st.resIdx
    tiles := st.tiles ++ [⟨st.capIdx, i, i * vh⟩] }

/-- The expected event trace of the tile loop when every scroll and every
first capture attempt succeeds. -/
def tileTrace (vh n : Nat) (l : List Nat) : List Ev :=
  l.flatMap fun i => [.scrollSet (i * vh), .wait 500, .captureCall]
    ++ if i < n - 1 then [.wait 1100] else []

/-- Sample multi-tile page: 800×600 viewport, 1500 px total height,
captured from scroll offset 0. -/
def sampleDims : Dims :=
  { fullHeight := 1500, viewportWidth := 800, viewportHeight := 600
    scrollY := 0 }

/-- Environment in which every host primitive succeeds and stitching
returns image 7. -/
def sampleEnv : CaptureEnv :=
  { captureOk := fun _ => true, scrollOk := fun _ => true
    restoreOk := fun _ => true, stitch := fun _ => some 7 }

/-- Same environment except every scroll-restoration call fails. -/
def sampleEnvNoRestore : CaptureEnv :=
  { captureOk := fun _ => true, scrollOk := fun _ => true
    restoreOk := fun _ => false, stitch := fun _ => some 7 }

/-- Same environment except every tile-loop scroll call fails. -/
def sampleEnvNoScroll : CaptureEnv :=
  { captureOk := fun _ => true, scrollOk := fun _ => false
    restoreOk := fun _ => false, stitch := fun _ => some 7 }

/-- Same environment except every capture call fails. -/
def sampleEnvNoCapture : CaptureEnv :=
  { captureOk := fun _ => false, scrollOk := fun _ => true
    restoreOk := fun _ => true, stitch := fun _ => some 7 }

inductive OffResult
  | ok
  | timeout
  | createFailed
  deriving Repr, DecidableEq

/-- Outcome of `chrome.offscreen.createDocument`: success, a rejection
whose message contains `already exists` (treated as success by the
catch block), or any other failure. -/
inductive CreateOutcome
  | success
  | alreadyExists
  | failure
  deriving Repr, DecidableEq

/-- Per-caller environment: whether `chrome.runtime.getContexts` reports
an existing offscreen document, and the `createDocument` outcome. -/
structure OffEnv where
  contextsExist : Bool
  createOutcome : CreateOutcome

/-- Program counter of one `ensureOffscreenDocument` caller, one atomic
slice per `await` boundary:
* `entry` — about to run the synchronous prologue (the `created` and
  `creating` checks and, if it becomes the provisioner, the
  `offscreenDocumentCreating = true` assignment);
* `owner1` — marked as creating, awaiting `getContexts`;
* `owner2` — called `createDocument`, awaiting its result;
* `poll i` — in the wait loop, inside its `(i+1)`-th `sleep(100)`;
* `ret r` — returned with result `r`. -/
inductive OffPC
  | entry
  | owner1
  | owner2
  | poll (i : Nat)
  | ret (r : OffResult)
  deriving Repr, DecidableEq

def isOwner : OffPC → Bool
  | .owner1 => true
  | .owner2 => true
  | _ => false

def isRet : OffPC → Bool
  | .ret _ => true
  | _ => false

/-- Global state: the two module-level booleans, both callers' program
counters, and instrumentation: per-caller `createDocument` call counts
and milliseconds slept in the wait loop. -/
structure OffSys where
  created : Bool
  creating : Bool
  pcA : OffPC
  pcB : OffPC
  createsA : Nat
  createsB : Nat
  sleptA : Nat
  sleptB : Nat
  deriving Repr, DecidableEq

def offInit : OffSys :=
  { created := false, creating := false, pcA := .entry, pcB := .entry
    createsA := 0, createsB := 0, sleptA := 0, sleptB := 0 }

/-- One atomic slice of caller A (`ensureOffscreenDocument`):
* `entry`: if the other call has already returned this entry is outside
  the overlapping-calls scenario (no-op); otherwise return `ok` if
  `created`, enter the wait loop if `creating`, else become the
  provisioner (`creating = true`) and await `getContexts`;
* `poll i`: wake from `sleep(100)`; return `ok` if `created`, give up
  with the timeout error after the 50th sleep, else sleep again;
* `owner1`: if a context already exists, mark created and return;
  otherwise call `createDocument` (the counted side effect);
* `owner2`: on success or an `already exists` error mark created and
  return `ok` (the `finally` clears `creating`); on any other failure
  clear `creating` and rethrow;
* `ret`: finished, no-op. -/
def offStepA (env : OffEnv) (s : OffSys) : OffSys :=
  match s.pcA with
  | .entry =>
      if isRet s.pcB then s
      else if s.created then { s with pcA := .ret .ok }
      else if s.creating then { s with pcA := .poll 0 }
      else { s with creating := true, pcA := .owner1 }
  | .poll i =>
      if s.created then
        { s with pcA := .ret .ok, sleptA := s.sleptA + 100 }
      else if i + 1 = 50 then
        { s with pcA := .ret .timeout, sleptA := s.sleptA + 100 }
      else { s with pcA := .poll (i + 1), sleptA := s.sleptA + 100 }
  | .owner1 =>
      if env.contextsExist then
        { s with created := true, creating := false, pcA := .ret .ok }
      else { s with pcA := .owner2, createsA := s.createsA + 1 }
  | .owner2 =>
      match env.createOutcome with
      | .success =>
          { s with created := true, creating := false, pcA := .ret .ok }
      | .alreadyExists =>
          { s with created := true, creating := false, pcA := .ret .ok }
      | .failure => { s with creating := false, pcA := .ret .createFailed }
  | .ret _ => s

/-- Exchange the two callers' roles. -/
def swapSys (s : OffSys) : OffSys :=
  { created := s.created, creating := s.creating
    pcA := s.pcB, pcB := s.pcA
    createsA := s.createsB, createsB := s.createsA
    sleptA := s.sleptB, sleptB := s.sleptA }

/-- One scheduler step: run one atomic slice of caller A (`a = true`) or
of caller B (`a = false`, expressed through the role swap). -/
def offStep (envA envB : OffEnv) (s : OffSys) (a : Bool) : OffSys :=
  if a then offStepA envA s else swapSys (offStepA envB (swapSys s))

/-- Run two overlapping `ensureOffscreenDocument` calls under a
schedule. -/
def offRun (envA envB : OffEnv) (sched : List Bool) : OffSys :=
  sched.foldl (offStep envA envB) offInit

/-- Per-caller part of the system invariant. -/
structure PerCaller (created : Bool) (pc : OffPC) (creates slept : Nat)
    (pcO : OffPC) : Prop where
  entry0 : pc = .entry → creates = 0 ∧ slept = 0
  owner1c : pc = .owner1 → creates = 0
  pollc : ∀ i, pc = .poll i → creates = 0 ∧ i ≤ 49 ∧ slept = i * 100
  owner2c : pc = .owner2 → creates = 1
  retOkc : pc = .ret .ok → created = true
  retTOc : pc = .ret .timeout → creates = 0 ∧ slept = 5000
  retCFc : pc = .ret .createFailed →
    created = false
      ∧ (pcO = .entry ∨ (∃ i, pcO = .poll i) ∨ pcO = .ret .timeout)
  boundc : creates ≤ 1

/-- System invariant of the two overlapping calls: the `creating` flag
holds exactly while one caller is in the provisioner region, at most one
caller is ever in that region, the provisioner only works while
`created` is still false, and at most one `createDocument` call has
happened in total. -/
structure OffInv (s : OffSys) : Prop where
  flag : s.creating = (isOwner s.pcA || isOwner s.pcB)
  excl : ¬(isOwner s.pcA = true ∧ isOwner s.pcB = true)
  ownNotCreated :
    isOwner s.pcA = true ∨ isOwner s.pcB = true → s.created = false
  total : s.createsA + s.createsB ≤ 1
  cA : PerCaller s.created s.pcA s.createsA s.sleptA s.pcB
  cB : PerCaller s.created s.pcB s.createsB s.sleptB s.pcA

/-- Environment in which no offscreen document exists yet and
`createDocument` succeeds. -/
def offEnvCreate : OffEnv :=
  { contextsExist := false, createOutcome := .success }

/-! ## Theorems -/

/-- Step equation: `onerror` of screenshot `j` fires. -/
theorem stitchStep_none {outcomes : List (Option Nat)} {n j : Nat}
    (s : StitchState) (h : decodeOf outcomes j = none) :
    stitchStep outcomes n s j
      = { s with settled := settleOnce s.settled (Except.error j) } := by
  simp [stitchStep, h]

/-- Step equation: `onload` of screenshot `j` fires and it is the last
pending screenshot, so `resolve` is called. -/
theorem stitchStep_some_full {outcomes : List (Option Nat)} {n j v : Nat}
    (s : StitchState) (h : decodeOf outcomes j = some v)
    (hn : s.loaded + 1 = n) :
    stitchStep outcomes n s j
      = { s with drawn := s.drawn ++ [(j, s.currentY, v)]
                 currentY := s.currentY + v
                 loaded := s.loaded + 1
                 settled := settleOnce s.settled (Except.ok ()) } := by
  simp [stitchStep, h, hn]

/-- Step equation: `onload` of screenshot `j` fires with screenshots
still pending. -/
theorem stitchStep_some_notfull {outcomes : List (Option Nat)} {n j v : Nat}
    (s : StitchState) (h : decodeOf outcomes j = some v)
    (hn : ¬ s.loaded + 1 = n) :
    stitchStep outcomes n s j
      = { s with drawn := s.drawn ++ [(j, s.currentY, v)]
                 currentY := s.currentY + v
                 loaded := s.loaded + 1 } := by
  simp [stitchStep, h, hn]

/-- Once the stitching promise has settled, later callbacks cannot change
the settlement. -/
theorem stitch_settled_frozen (outcomes : List (Option Nat)) (n : Nat) :
    ∀ (l : List Nat) (s : StitchState) (x : Except Nat Unit),
      s.settled = some x →
      (l.foldl (stitchStep outcomes n) s).settled = some x := by
  intro l
  induction l with
  | nil => intro s x hx; simpa using hx
  | cons j l ih =>
      intro s x hx
      have hstep : (stitchStep outcomes n s j).settled = some x := by
        cases houtcome : decodeOf outcomes j with
        | none => rw [stitchStep_none s houtcome]; simp [settleOnce, hx]
        | some v =>
            by_cases hn : s.loaded + 1 = n
            · rw [stitchStep_some_full s houtcome hn]; simp [settleOnce, hx]
            · rw [stitchStep_some_notfull s houtcome hn]; simpa using hx
      simpa [List.foldl] using ih _ x hstep

/-- Firing callbacks of screenshots that all decoded successfully: each
one draws exactly once and bumps `loadedCount`; the promise resolves
exactly when `loadedCount` reaches `n`, and stays unsettled before. -/
theorem stitch_all_loaded (outcomes : List (Option Nat)) (n : Nat) :
    ∀ (l : List Nat) (s : StitchState),
      (∀ j ∈ l, (decodeOf outcomes j).isSome) →
      s.settled = none →
      s.loaded + l.length ≤ n →
      (l.foldl (stitchStep outcomes n) s).loaded = s.loaded + l.length ∧
      (l.foldl (stitchStep outcomes n) s).drawn.length
          = s.drawn.length + l.length ∧
      (s.loaded + l.length < n →
        (l.foldl (stitchStep outcomes n) s).settled = none) ∧
      (s.loaded + l.length = n → 0 < l.length →
        (l.foldl (stitchStep outcomes n) s).settled = some (Except.ok ())) := by
  intro l
  induction l with
  | nil =>
      intro s _ hnone _
      refine ⟨by simp, by simp, fun _ => by simpa using hnone,
        fun _ h0 => by simp at h0⟩
  | cons j l ih =>
      intro s hall hnone hle
      obtain ⟨v, hj⟩ := Option.isSome_iff_exists.mp (hall j (by simp))
      simp only [List.length_cons] at hle
      by_cases hfull : s.loaded + 1 = n
      · -- this load is the last one: the promise resolves now and the
        -- remaining list must be empty
        have hl : l = [] := List.length_eq_zero.mp (by omega)
        subst hl
        rw [show ([j] : List Nat).foldl (stitchStep outcomes n) s
            = stitchStep outcomes n s j from rfl,
          stitchStep_some_full s hj hfull]
        refine ⟨by simp, by simp, ?_, fun _ _ => by simp [settleOnce, hnone]⟩
        intro hlt
        exfalso
        simp only [List.length_cons, List.length_nil] at hlt
        omega
      · rw [show ((j :: l).foldl (stitchStep outcomes n) s)
            = l.foldl (stitchStep outcomes n) (stitchStep outcomes n s j)
            from rfl, stitchStep_some_notfull s hj hfull]
        have hall' : ∀ i ∈ l, (decodeOf outcomes i).isSome := by
          intro i hi; exact hall i (by simp [hi])
        obtain ⟨h1, h2, h3, h4⟩ :=
          ih { s with drawn := s.drawn ++ [(j, s.currentY, v)]
                      currentY := s.currentY + v
                      loaded := s.loaded + 1 }
            hall' (by simp [hnone]) (by simp; omega)
        simp only [List.length_append, List.length_cons, List.length_nil]
          at h1 h2 h3 h4 ⊢
        refine ⟨by rw [h1]; omega, ?_, ?_, ?_⟩
        · rw [h2]; omega
        · intro hlt; exact h3 (by omega)
        · intro heq _; exact h4 (by omega) (by omega)

/-- A decode failure rejects the promise with that screenshot's index,
provided no earlier callback already settled it. -/
theorem stitch_reject (outcomes : List (Option Nat)) (n : Nat)
    (l1 l2 : List Nat) (j : Nat) (s : StitchState)
    (hnone : s.settled = none)
    (hall : ∀ i ∈ l1, (decodeOf outcomes i).isSome)
    (hlt : s.loaded + l1.length < n)
    (hj : decodeOf outcomes j = none) :
    ((l1 ++ j :: l2).foldl (stitchStep outcomes n) s).settled
      = some (Except.error j) := by
  rw [List.foldl_append]
  have h1 := stitch_all_loaded outcomes n l1 s hall hnone (le_of_lt hlt)
  have hmid : (l1.foldl (stitchStep outcomes n) s).settled = none :=
    h1.2.2.1 hlt
  have hstep : (stitchStep outcomes n
      (l1.foldl (stitchStep outcomes n) s) j).settled
        = some (Except.error j) := by
    rw [stitchStep_none _ hj]; simp [settleOnce, hmid]
  simpa [List.foldl] using
    stitch_settled_frozen outcomes n l2 _ (Except.error j) hstep

/-- If some screenshot in the remaining event list fails to decode, the
promise settles with a rejection naming a failed screenshot. -/
theorem stitch_error_exists (outcomes : List (Option Nat)) (n : Nat) :
    ∀ (l : List Nat) (s : StitchState),
      s.settled = none →
      s.loaded + l.length ≤ n →
      (∃ j ∈ l, decodeOf outcomes j = none) →
      ∃ i, (l.foldl (stitchStep outcomes n) s).settled
              = some (Except.error i)
            ∧ decodeOf outcomes i = none := by
  intro l
  induction l with
  | nil => intro s _ _ hex; simp at hex
  | cons k l ih =>
      intro s hnone hle hex
      simp only [List.length_cons] at hle
      cases houtcome : decodeOf outcomes k with
      | none =>
          refine ⟨k, ?_, houtcome⟩
          have hstep : (stitchStep outcomes n s k).settled
              = some (Except.error k) := by
            rw [stitchStep_none _ houtcome]; simp [settleOnce, hnone]
          simpa [List.foldl] using
            stitch_settled_frozen outcomes n l _ (Except.error k) hstep
      | some v =>
          obtain ⟨j, hjmem, hjnone⟩ := hex
          have hjl : j ∈ l := by
            rcases List.mem_cons.mp hjmem with hjk | hjl
            · exfalso; rw [hjk, houtcome] at hjnone
              exact Option.noConfusion hjnone
            · exact hjl
          have hlpos : 0 < l.length := List.length_pos.mpr
            (List.ne_nil_of_mem hjl)
          have hfull : ¬ s.loaded + 1 = n := by omega
          rw [show ((k :: l).foldl (stitchStep outcomes n) s)
              = l.foldl (stitchStep outcomes n) (stitchStep outcomes n s k)
              from rfl, stitchStep_some_notfull s houtcome hfull]
          exact ih { s with drawn := s.drawn ++ [(k, s.currentY, v)]
                            currentY := s.currentY + v
                            loaded := s.loaded + 1 }
            (by simp [hnone]) (by simp; omega) ⟨j, hjl, hjnone⟩

/-- C8: whatever order the decodes complete in, a failing tile decode
rejects the whole composition with an error naming a failed tile's index
(the failing tile itself when it is the only failure), and a resolved
composition implies every tile decoded and was drawn — no partial image
is ever returned. -/
theorem c8_decode_failure_rejects_composition
    (outcomes : List (Option Nat)) (n : Nat) (order : List Nat)
    (hPerm : order.Perm (List.range n)) :
    (∀ j, j < n → decodeOf outcomes j = none →
      ∃ i, (stitchRun outcomes n order).settled = some (Except.error i)
        ∧ decodeOf outcomes i = none)
    ∧ (∀ j, j < n → decodeOf outcomes j = none →
        (∀ i, i < n → i ≠ j → (decodeOf outcomes i).isSome) →
        (stitchRun outcomes n order).settled = some (Except.error j))
    ∧ ((stitchRun outcomes n order).settled = some (Except.ok ()) →
        (∀ j, j < n → (decodeOf outcomes j).isSome)
        ∧ (stitchRun outcomes n order).drawn.length = n) := by
  have hlen : order.length = n := hPerm.length_eq.trans (List.length_range n)
  have hmem : ∀ j, j < n → j ∈ order := fun j hj =>
    hPerm.mem_iff.mpr (List.mem_range.mpr hj)
  have hmem' : ∀ j, j ∈ order → j < n := fun j hj =>
    List.mem_range.mp (hPerm.mem_iff.mp hj)
  have hnodup : order.Nodup := hPerm.nodup_iff.mpr (List.nodup_range n)
  refine ⟨?_, ?_, ?_⟩
  · intro j hj hjnone
    exact stitch_error_exists outcomes n order initStitch rfl
      (by simp [initStitch, hlen]) ⟨j, hmem j hj, hjnone⟩
  · intro j hj hjnone huniq
    obtain ⟨l1, l2, horder⟩ := List.append_of_mem (hmem j hj)
    subst horder
    have hndp := List.nodup_append.mp hnodup
    have hjnotl1 : j ∉ l1 := fun hmemj =>
      hndp.2.2 hmemj (List.mem_cons_self j l2)
    have hall : ∀ i ∈ l1, (decodeOf outcomes i).isSome := by
      intro i hi
      have hin : i < n := hmem' i (by simp [hi])
      have hne : i ≠ j := fun heq => hjnotl1 (heq ▸ hi)
      exact huniq i hin hne
    have hl1 : initStitch.loaded + l1.length < n := by
      simp only [List.length_append, List.length_cons] at hlen
      simp [initStitch]; omega
    exact stitch_reject outcomes n l1 l2 j initStitch rfl hall hl1 hjnone
  · intro hok
    by_cases hex : ∃ j ∈ order, decodeOf outcomes j = none
    · obtain ⟨i, hsettled, _⟩ := stitch_error_exists outcomes n order
        initStitch rfl (by simp [initStitch, hlen]) hex
      rw [show stitchRun outcomes n order
          = order.foldl (stitchStep outcomes n) initStitch from rfl] at hok
      rw [hok] at hsettled
      simp at hsettled
    · push_neg at hex
      have hallsome : ∀ j ∈ order, (decodeOf outcomes j).isSome := by
        intro j hj
        exact Option.ne_none_iff_isSome.mp (hex j hj)
      have hrun := stitch_all_loaded outcomes n order initStitch hallsome
        rfl (by simp [initStitch, hlen])
      refine ⟨fun j hj => hallsome j (hmem j hj), ?_⟩
      have := hrun.2.1
      simpa [initStitch, hlen] using this

/-- Witness for C8: two tiles, the second one failing to decode, with
in-order completion: the composition rejects with index 1. -/
theorem c8_decode_failure_rejects_composition_witness :
    (stitchRun [some 5, none] 2 [0, 1]).settled = some (Except.error 1) :=
  (c8_decode_failure_rejects_composition [some 5, none] 2 [0, 1]
      (by decide)).2.1 1 (by decide) (by rfl) (by decide)

/-! ### Orchestrator lemmas -/

theorem countEv_append (p : Ev → Bool) (a b : List Ev) :
    countEv p (a ++ b) = countEv p a + countEv p b := by
  simp [countEv, List.filter_append]

theorem scrollTargets_append (a b : List Ev) :
    scrollTargets (a ++ b) = scrollTargets a ++ scrollTargets b := by
  simp [scrollTargets, List.filterMap_append]

/-- A `captureVisibleTab` call that succeeds on its first attempt exits
the retry loop immediately. -/
theorem captureRetry_first_ok (env : CaptureEnv) (st : OrchSt)
    (h : env.captureOk st.capIdx = true) :
    captureRetry env 3 st = .ok (st.capIdx,
      { st with events := st.events ++ [.captureCall]
                capIdx := st.capIdx + 1 }) := by
  simp [captureRetry, h]

/-- Fail on attempt 1, succeed on attempt 2: one 1000 ms backoff wait. -/
theorem captureRetry_second_ok (env : CaptureEnv) (st : OrchSt)
    (h0 : env.captureOk st.capIdx = false)
    (h1 : env.captureOk (st.capIdx + 1) = true) :
    captureRetry env 3 st = .ok (st.capIdx + 1,
      { st with events := st.events
                  ++ [.captureCall, .wait 1000, .captureCall]
                capIdx := st.capIdx + 2 }) := by
  simp [captureRetry, h0, h1]

/-- Fail on attempts 1 and 2, succeed on attempt 3: backoff waits of
1000 ms then 2000 ms. -/
theorem captureRetry_third_ok (env : CaptureEnv) (st : OrchSt)
    (h0 : env.captureOk st.capIdx = false)
    (h1 : env.captureOk (st.capIdx + 1) = false)
    (h2 : env.captureOk (st.capIdx + 2) = true) :
    captureRetry env 3 st = .ok (st.capIdx + 2,
      { st with events := st.events
                  ++ [.captureCall, .wait 1000, .captureCall,
                      .wait 2000, .captureCall]
                capIdx := st.capIdx + 3 }) := by
  simp [captureRetry, h0, h1, h2]

/-- All three attempts fail: the retry loop rethrows the last capture
error after exactly three calls and waits of 1000 ms and 2000 ms. -/
theorem captureRetry_all_fail (env : CaptureEnv) (st : OrchSt)
    (h0 : env.captureOk st.capIdx = false)
    (h1 : env.captureOk (st.capIdx + 1) = false)
    (h2 : env.captureOk (st.capIdx + 2) = false) :
    captureRetry env 3 st = .error (.captureFailed (st.capIdx + 2),
      { st with events := st.events
                  ++ [.captureCall, .wait 1000, .captureCall,
                      .wait 2000, .captureCall]
                capIdx := st.capIdx + 3 }) := by
  simp [captureRetry, h0, h1, h2]

theorem tileLoop_cons_ok (env : CaptureEnv) (vh n i : Nat) (l : List Nat)
    (st : OrchSt) (hc : env.captureOk st.capIdx = true)
    (hs : env.scrollOk i = true) :
    tileLoop env vh n (i :: l) st
      = tileLoop env vh n l (tileStepSt vh n i st) := by
  by_cases hi : i < n - 1 <;>
    simp [tileLoop, tileStepSt, hs, captureRetry, hc, hi]

theorem tileLoop_events_ok (env : CaptureEnv) (vh n : Nat)
    (hcap : ∀ k, env.captureOk k = true)
    (hscr : ∀ i, env.scrollOk i = true) :
    ∀ (l : List Nat) (st : OrchSt), ∃ st',
      tileLoop env vh n l st = .ok st'
      ∧ st'.events = st.events ++ tileTrace vh n l := by
  intro l
  induction l with
  | nil => intro st; exact ⟨st, rfl, by simp [tileTrace]⟩
  | cons i l ih =>
      intro st
      rw [tileLoop_cons_ok env vh n i l st (hcap _) (hscr _)]
      obtain ⟨st', hrun, hev⟩ := ih (tileStepSt vh n i st)
      refine ⟨st', hrun, ?_⟩
      rw [hev]
      simp [tileStepSt, tileTrace, List.flatMap_cons]

theorem tileTrace_captures (vh n : Nat) (l : List Nat) :
    countEv isCaptureCall (tileTrace vh n l) = l.length := by
  induction l with
  | nil => simp [tileTrace, countEv]
  | cons i l ih =>
      rw [show tileTrace vh n (i :: l)
        = ([.scrollSet (i * vh), .wait 500, .captureCall]
            ++ if i < n - 1 then [.wait 1100] else [])
          ++ tileTrace vh n l from by simp [tileTrace, List.flatMap_cons]]
      rw [countEv_append, ih]
      by_cases hi : i < n - 1 <;> simp [countEv, isCaptureCall, hi] <;> omega

theorem tileTrace_scrolls (vh n : Nat) (l : List Nat) :
    scrollTargets (tileTrace vh n l) = l.map (fun i => i * vh) := by
  induction l with
  | nil => simp [tileTrace, scrollTargets]
  | cons i l ih =>
      rw [show tileTrace vh n (i :: l)
        = ([.scrollSet (i * vh), .wait 500, .captureCall]
            ++ if i < n - 1 then [.wait 1100] else [])
          ++ tileTrace vh n l from by simp [tileTrace, List.flatMap_cons]]
      rw [scrollTargets_append, ih]
      by_cases hi : i < n - 1 <;> simp [scrollTargets, hi]

/-- After a successful tile loop, the rest of the session (stitch and
restoration) adds no capture calls and no tile-loop scroll events. -/
theorem fullPage_extra_ok (env : CaptureEnv) (dims : Dims)
    (st0 st' : OrchSt)
    (h : tileLoop env dims.viewportHeight (numScreenshots dims)
      (List.range (numScreenshots dims)) st0 = .ok st') :
    ∃ extra,
      (captureFullPageWithScrolling env dims st0).2.events
        = st'.events ++ [.stitchCall] ++ extra
      ∧ countEv isCaptureCall extra = 0
      ∧ scrollTargets extra = [] := by
  simp only [captureFullPageWithScrolling, h]
  cases hst : env.stitch st'.tiles with
  | none =>
      by_cases hres : env.restoreOk st'.resIdx
      · exact ⟨[.restoreSet dims.scrollY],
          by simp [restoreAttempt, hres], by simp [countEv, isCaptureCall],
          by simp [scrollTargets]⟩
      · exact ⟨[], by simp [restoreAttempt, hres], rfl, rfl⟩
  | some img =>
      by_cases hres : env.restoreOk st'.resIdx
      · exact ⟨[.restoreSet dims.scrollY],
          by simp [restoreAttempt, hres], by simp [countEv, isCaptureCall],
          by simp [scrollTargets]⟩
      · by_cases hres2 : env.restoreOk (st'.resIdx + 1)
        · exact ⟨[.restoreSet dims.scrollY],
            by simp [restoreAttempt, hres, hres2],
            by simp [countEv, isCaptureCall], by simp [scrollTargets]⟩
        · exact ⟨[], by simp [restoreAttempt, hres, hres2], rfl, rfl⟩

/-- C1: the compositor draws tiles at offsets accumulated in
decode-COMPLETION order, not index order.  With two tiles of decoded
height 600 whose decodes complete as (tile 1, tile 0), tile 1 is drawn at
`y = 0` and tile 0 at `y = 600` — tile 0 does not occupy its
index-assigned slot `[0, 600)`, so out-of-order decode completion does
change which vertical region a tile occupies. -/
theorem c1_completion_order_changes_placement :
    (stitchRun [some 600, some 600] 2 [1, 0]).drawn
        = [(1, 0, 600), (0, 600, 600)]
      ∧ drawnY (stitchRun [some 600, some 600] 2 [1, 0]) 0 = some 600
      ∧ drawnY (stitchRun [some 600, some 600] 2 [1, 0]) 0 ≠ some 0 := by
  refine ⟨rfl, rfl, ?_⟩
  decide

/-- C2: whatever the outcome of the tile loop and of stitching, the
session ends with the page scrolled back to the offset recorded at
session start, provided the restoration scrolls themselves succeed: a
restoration is attempted on the success path and on every failure
path. -/
theorem c2_scroll_restored (env : CaptureEnv) (dims : Dims)
    (_hmulti : dims.viewportHeight < dims.fullHeight)
    (hres : ∀ j, env.restoreOk j = true) :
    (captureFullPageWithScrolling env dims (initOrch dims.scrollY)).2.pos
      = dims.scrollY := by
  simp only [captureFullPageWithScrolling]
  split
  · simp [restoreAttempt, hres]
  · split
    · simp [restoreAttempt, hres]
    · simp [restoreAttempt, hres]

/-- Witness for C2: on the sample page with all primitives succeeding,
and also with all captures failing, the final scroll position is the
recorded 0. -/
theorem c2_scroll_restored_witness :
    (captureFullPageWithScrolling sampleEnv sampleDims (initOrch 0)).2.pos
        = 0
      ∧ (captureFullPageWithScrolling sampleEnvNoCapture sampleDims
          (initOrch 0)).2.pos = 0 :=
  ⟨c2_scroll_restored sampleEnv sampleDims (by decide) (fun _ => rfl),
   c2_scroll_restored sampleEnvNoCapture sampleDims (by decide)
     (fun _ => rfl)⟩

/-- C3: on a page taller than the viewport, with every scroll and every
capture succeeding, the loop performs exactly
`ceil(fullHeight / viewportHeight)` capture calls, and the scroll offsets
it sets are exactly `0, viewportHeight, 2*viewportHeight, …`, one per
tile, in strictly increasing order. -/
theorem c3_tile_plan (env : CaptureEnv) (dims : Dims)
    (hvh : 0 < dims.viewportHeight)
    (_hmulti : dims.viewportHeight < dims.fullHeight)
    (hcap : ∀ k, env.captureOk k = true)
    (hscr : ∀ i, env.scrollOk i = true) :
    countEv isCaptureCall
        (captureFullPageWithScrolling env dims
          (initOrch dims.scrollY)).2.events
      = numScreenshots dims
    ∧ numScreenshots dims = dims.fullHeight ⌈/⌉ dims.viewportHeight
    ∧ scrollTargets
        (captureFullPageWithScrolling env dims
          (initOrch dims.scrollY)).2.events
      = (List.range (numScreenshots dims)).map
          (fun i => i * dims.viewportHeight)
    ∧ List.Pairwise (· < ·)
        (scrollTargets
          (captureFullPageWithScrolling env dims
            (initOrch dims.scrollY)).2.events) := by
  obtain ⟨st', hloop, hev⟩ := tileLoop_events_ok env dims.viewportHeight
    (numScreenshots dims) hcap hscr (List.range (numScreenshots dims))
    (initOrch dims.scrollY)
  obtain ⟨extra, hfull, hc0, hs0⟩ := fullPage_extra_ok env dims _ st' hloop
  have hscrolls : scrollTargets
      (captureFullPageWithScrolling env dims
        (initOrch dims.scrollY)).2.events
      = (List.range (numScreenshots dims)).map
          (fun i => i * dims.viewportHeight) := by
    rw [hfull, scrollTargets_append, scrollTargets_append, hs0, hev,
      scrollTargets_append, tileTrace_scrolls]
    simp [initOrch, scrollTargets]
  refine ⟨?_, ?_, hscrolls, ?_⟩
  · rw [hfull, countEv_append, countEv_append, hc0, hev, countEv_append,
      tileTrace_captures]
    simp [initOrch, countEv, isCaptureCall]
  · rw [Nat.ceilDiv_eq_add_pred_div]; rfl
  · rw [hscrolls]
    refine List.pairwise_map.mpr ?_
    refine (List.pairwise_lt_range _).imp ?_
    intro a b hab
    exact (Nat.mul_lt_mul_right hvh).mpr hab

/-- Witness for C3: the sample page yields 3 capture calls at scroll
offsets 0, 600, 1200. -/
theorem c3_tile_plan_witness :
    countEv isCaptureCall
        (captureFullPageWithScrolling sampleEnv sampleDims
          (initOrch 0)).2.events = 3
      ∧ scrollTargets
          (captureFullPageWithScrolling sampleEnv sampleDims
            (initOrch 0)).2.events = [0, 600, 1200] := by
  have h := c3_tile_plan sampleEnv sampleDims (by decide) (by decide)
    (fun _ => rfl) (fun _ => rfl)
  exact ⟨h.1.trans (by decide), h.2.2.1.trans (by decide)⟩

/-- C4: a page that fits in the viewport is handled by exactly one
capture call with no scroll mutation, no restoration, and no stitch
message; on a successful capture its image is returned directly. -/
theorem c4_single_shot (env : CaptureEnv) (dims : Dims)
    (hfit : dims.fullHeight ≤ dims.viewportHeight) :
    countEv isCaptureCall
        (handleCaptureScreenshot env (some dims)).2.events = 1
    ∧ countEv isScrollSet
        (handleCaptureScreenshot env (some dims)).2.events = 0
    ∧ countEv isRestoreSet
        (handleCaptureScreenshot env (some dims)).2.events = 0
    ∧ countEv isStitchCall
        (handleCaptureScreenshot env (some dims)).2.events = 0
    ∧ (handleCaptureScreenshot env (some dims)).2.pos = dims.scrollY
    ∧ (env.captureOk 0 = true →
        (handleCaptureScreenshot env (some dims)).1 = some 0) := by
  refine ⟨?_, ?_, ?_, ?_, ?_, ?_⟩ <;>
    simp [handleCaptureScreenshot, hfit, captureSingleScreenshot,
      initOrch, countEv, isCaptureCall, isScrollSet, isRestoreSet,
      isStitchCall]

/-- Witness for C4: a 600 px page in an 800×600 viewport. -/
theorem c4_single_shot_witness :
    countEv isCaptureCall
        (handleCaptureScreenshot sampleEnv
          (some { fullHeight := 600, viewportWidth := 800
                  viewportHeight := 600, scrollY := 5 })).2.events = 1
      ∧ (handleCaptureScreenshot sampleEnv
          (some { fullHeight := 600, viewportWidth := 800
                  viewportHeight := 600, scrollY := 5 })).1 = some 0 := by
  have h := c4_single_shot sampleEnv
    { fullHeight := 600, viewportWidth := 800
      viewportHeight := 600, scrollY := 5 } (by decide)
  exact ⟨h.1, h.2.2.2.2.2 rfl⟩

/-- C5: a failing capture call is retried up to 3 attempts in total, with
a `min(1000·2^(attempt-1), 3000)` ms backoff wait before each retry
(1000 ms, then 2000 ms); success on any attempt exits the loop, and if
all three attempts fail the whole session aborts with the capture
error. -/
theorem c5_retry_backoff (env : CaptureEnv) (st : OrchSt) (dims : Dims) :
    (env.captureOk st.capIdx = true →
      captureRetry env 3 st = .ok (st.capIdx,
        { st with events := st.events ++ [.captureCall]
                  capIdx := st.capIdx + 1 }))
    ∧ (env.captureOk st.capIdx = false →
        env.captureOk (st.capIdx + 1) = true →
        captureRetry env 3 st = .ok (st.capIdx + 1,
          { st with events := st.events
                      ++ [.captureCall, .wait 1000, .captureCall]
                    capIdx := st.capIdx + 2 }))
    ∧ (env.captureOk st.capIdx = false →
        env.captureOk (st.capIdx + 1) = false →
        env.captureOk (st.capIdx + 2) = true →
        captureRetry env 3 st = .ok (st.capIdx + 2,
          { st with events := st.events
                      ++ [.captureCall, .wait 1000, .captureCall,
                          .wait 2000, .captureCall]
                    capIdx := st.capIdx + 3 }))
    ∧ (env.captureOk st.capIdx = false →
        env.captureOk (st.capIdx + 1) = false →
        env.captureOk (st.capIdx + 2) = false →
        captureRetry env 3 st = .error (.captureFailed (st.capIdx + 2),
          { st with events := st.events
                      ++ [.captureCall, .wait 1000, .captureCall,
                          .wait 2000, .captureCall]
                    capIdx := st.capIdx + 3 }))
    ∧ (0 < dims.viewportHeight → dims.viewportHeight < dims.fullHeight →
        (∀ i, env.scrollOk i = true) →
        (∀ k, env.captureOk k = false) →
        (captureFullPageWithScrolling env dims
          (initOrch dims.scrollY)).1 = .error (.captureFailed 2)) := by
  refine ⟨captureRetry_first_ok env st,
    captureRetry_second_ok env st,
    captureRetry_third_ok env st,
    captureRetry_all_fail env st, ?_⟩
  intro hvh hmulti hscr hcap
  have hn : 0 < numScreenshots dims := by
    simp only [numScreenshots]
    exact Nat.div_pos (by omega) hvh
  obtain ⟨m, hm⟩ : ∃ m, numScreenshots dims = m + 1 :=
    ⟨numScreenshots dims - 1, by omega⟩
  have hrange : List.range (numScreenshots dims)
      = 0 :: List.map Nat.succ (List.range m) := by
    rw [hm, List.range_succ_eq_map]
  have hloop : tileLoop env dims.viewportHeight (numScreenshots dims)
      (List.range (numScreenshots dims)) (initOrch dims.scrollY)
      = .error (.captureFailed 2,
          { pos := 0 * dims.viewportHeight
            events := (initOrch dims.scrollY).events
              ++ [.scrollSet (0 * dims.viewportHeight), .wait 500]
              ++ [.captureCall, .wait 1000, .captureCall,
                  .wait 2000, .captureCall]
            capIdx := 3
            resIdx := 0
            tiles := [] }) := by
    rw [hrange]
    rw [show tileLoop env dims.viewportHeight (numScreenshots dims)
        (0 :: List.map Nat.succ (List.range m)) (initOrch dims.scrollY)
        = match captureRetry env 3
            { initOrch dims.scrollY with
              pos := 0 * dims.viewportHeight
              events := (initOrch dims.scrollY).events
                ++ [.scrollSet (0 * dims.viewportHeight), .wait 500] } with
          | .error e => .error e
          | .ok (img, st2) =>
              tileLoop env dims.viewportHeight (numScreenshots dims)
                (List.map Nat.succ (List.range m))
                (if 0 < numScreenshots dims - 1 then
                  { st2 with
                    tiles := st2.tiles ++ [⟨img, 0, 0 * dims.viewportHeight⟩]
                    events := st2.events ++ [.wait 1100] }
                else
                  { st2 with
                    tiles := st2.tiles
                      ++ [⟨img, 0, 0 * dims.viewportHeight⟩] })
          from by simp [tileLoop, hscr 0]]
    rw [captureRetry_all_fail env _ (hcap _) (hcap _) (hcap _)]
    simp [initOrch]
  simp only [captureFullPageWithScrolling, hloop]

/-- Witness for C5: with every capture failing on the sample page, the
retry loop gives up after three attempts and the session aborts with the
capture error of the third call. -/
theorem c5_retry_backoff_witness :
    captureRetry sampleEnvNoCapture 3 (initOrch 0)
        = .error (.captureFailed 2,
            { pos := 0
              events := [.captureCall, .wait 1000, .captureCall,
                         .wait 2000, .captureCall]
              capIdx := 3, resIdx := 0, tiles := [] })
      ∧ (captureFullPageWithScrolling sampleEnvNoCapture sampleDims
          (initOrch 0)).1 = .error (.captureFailed 2) := by
  have h := c5_retry_backoff sampleEnvNoCapture (initOrch 0) sampleDims
  refine ⟨(h.2.2.2.1 rfl rfl rfl).trans (by rfl), ?_⟩
  exact h.2.2.2.2 (by decide) (by decide) (fun _ => rfl) (fun _ => rfl)

/-- C7 counterexample: in an environment where capture and stitching
succeed but scroll restoration fails, the session's outcome is the
restoration error, not the stitched image — a restore failure on the
success path does override the primary success. -/
theorem c7_counterexample_restore_overrides_success :
    (captureFullPageWithScrolling sampleEnvNoRestore sampleDims
        (initOrch 0)).1 = .error .restoreFailed
      ∧ (captureFullPageWithScrolling sampleEnv sampleDims
          (initOrch 0)).1 = .ok 7 :=
  ⟨rfl, rfl⟩

/-- C7 (amended): a restore failure never overrides a *primary failure*
(the loop or stitch error is what propagates), and a successful session
with a successful restoration returns the image; but when the primary
path succeeded and the success-path restoration fails, the restoration
failure becomes the session's outcome and the image is not returned. -/
theorem c7_amended_restore_failure_propagation (env : CaptureEnv)
    (dims : Dims) (st0 : OrchSt) :
    (∀ e st', tileLoop env dims.viewportHeight (numScreenshots dims)
        (List.range (numScreenshots dims)) st0 = .error (e, st') →
      (captureFullPageWithScrolling env dims st0).1 = .error e)
    ∧ (∀ st', tileLoop env dims.viewportHeight (numScreenshots dims)
        (List.range (numScreenshots dims)) st0 = .ok st' →
        env.stitch st'.tiles = none →
      (captureFullPageWithScrolling env dims st0).1 = .error .stitchFailed)
    ∧ (∀ st' img, tileLoop env dims.viewportHeight (numScreenshots dims)
        (List.range (numScreenshots dims)) st0 = .ok st' →
        env.stitch st'.tiles = some img →
        env.restoreOk st'.resIdx = true →
      (captureFullPageWithScrolling env dims st0).1 = .ok img)
    ∧ (∀ st' img, tileLoop env dims.viewportHeight (numScreenshots dims)
        (List.range (numScreenshots dims)) st0 = .ok st' →
        env.stitch st'.tiles = some img →
        env.restoreOk st'.resIdx = false →
      (captureFullPageWithScrolling env dims st0).1
          = .error .restoreFailed) := by
  refine ⟨?_, ?_, ?_, ?_⟩
  · intro e st' h
    simp [captureFullPageWithScrolling, h]
  · intro st' h hst
    simp [captureFullPageWithScrolling, h, hst]
  · intro st' img h hst hres
    simp [captureFullPageWithScrolling, h, hst, restoreAttempt, hres]
  · intro st' img h hst hres
    by_cases hres2 : env.restoreOk (st'.resIdx + 1) <;>
      simp [captureFullPageWithScrolling, h, hst, restoreAttempt, hres,
        hres2]

/-- Witness for C7 (amended): with the tile loop failing at tile 0's
scroll, the session propagates the scroll error, not the restore
error. -/
theorem c7_amended_witness :
    (captureFullPageWithScrolling sampleEnvNoScroll sampleDims
        (initOrch 0)).1 = .error (.scrollFailed 0) :=
  (c7_amended_restore_failure_propagation sampleEnvNoScroll sampleDims
    (initOrch 0)).1 (.scrollFailed 0) (initOrch 0) rfl

/-- C9: the orchestrator has no cancellation mechanism: its inputs
contain no cancellation signal, and a multi-tile session runs every tile
to completion — on the sample 3-tile page it performs all 3 capture
calls and returns the stitched image; no execution yields a `Cancelled`
outcome (no such error exists in its error set). -/
theorem c9_no_cancellation :
    (captureFullPageWithScrolling sampleEnv sampleDims (initOrch 0)).1
        = .ok 7
      ∧ countEv isCaptureCall
          (captureFullPageWithScrolling sampleEnv sampleDims
            (initOrch 0)).2.events = 3
      ∧ scrollTargets
          (captureFullPageWithScrolling sampleEnv sampleDims
            (initOrch 0)).2.events = [0, 600, 1200] :=
  ⟨rfl, rfl, rfl⟩

/-- C10: the `captureScreenshot` response always reports
`success: true`; when the probe fails or the scrolling capture fails, the
response still reports success, carrying `dataUrl: null` and no failure
reason. -/
theorem c10_response_always_success (env : CaptureEnv)
    (probe : Option Dims) :
    (captureScreenshotResponse env probe).success = true
    ∧ (probe = none →
        (captureScreenshotResponse env probe).dataUrl = none)
    ∧ (∀ dims e st, probe = some dims →
        dims.viewportHeight < dims.fullHeight →
        captureFullPageWithScrolling env dims (initOrch dims.scrollY)
          = (.error e, st) →
        (captureScreenshotResponse env probe).dataUrl = none) := by
  refine ⟨rfl, ?_, ?_⟩
  · intro h; subst h; rfl
  · intro dims e st hp hlt herr
    subst hp
    simp [captureScreenshotResponse, handleCaptureScreenshot,
      Nat.not_le.mpr hlt, herr]

/-! ### Resource-manager lemmas -/

theorem offInv_init : OffInv offInit := by
  refine ⟨rfl, by simp [offInit, isOwner], by simp [offInit, isOwner],
    by simp [offInit], ?_, ?_⟩ <;>
    exact ⟨fun _ => ⟨rfl, rfl⟩, by simp [offInit], by simp [offInit],
      by simp [offInit], by simp [offInit], by simp [offInit],
      by simp [offInit], by simp [offInit]⟩

theorem offInv_swap {s : OffSys} (h : OffInv s) : OffInv (swapSys s) := by
  refine ⟨?_, ?_, ?_, ?_, h.cB, h.cA⟩
  · show s.creating = (isOwner s.pcB || isOwner s.pcA)
    rw [h.flag, Bool.or_comm]
  · exact fun ⟨x, y⟩ => h.excl ⟨y, x⟩
  · exact fun hp => h.ownNotCreated hp.symm
  · show s.createsB + s.createsA ≤ 1
    have := h.total; omega

/-! ### PerCaller constructors and weakening -/

theorem perCaller_entry {created : Bool} {creates slept : Nat}
    {pcO : OffPC} (h0 : creates = 0) (hs : slept = 0) :
    PerCaller created .entry creates slept pcO :=
  ⟨fun _ => ⟨h0, hs⟩, by simp, by simp, by simp, by simp, by simp,
    by simp, by omega⟩

theorem perCaller_owner1 {created : Bool} {creates slept : Nat}
    {pcO : OffPC} (h0 : creates = 0) :
    PerCaller created .owner1 creates slept pcO :=
  ⟨by simp, fun _ => h0, by simp, by simp, by simp, by simp,
    by simp, by omega⟩

theorem perCaller_owner2 {created : Bool} {creates slept : Nat}
    {pcO : OffPC} (h1 : creates = 1) :
    PerCaller created .owner2 creates slept pcO :=
  ⟨by simp, by simp, by simp, fun _ => h1, by simp, by simp,
    by simp, by omega⟩

theorem perCaller_poll {created : Bool} {creates slept : Nat}
    {pcO : OffPC} (i : Nat) (h0 : creates = 0) (hi : i ≤ 49)
    (hs : slept = i * 100) :
    PerCaller created (.poll i) creates slept pcO := by
  refine ⟨by simp, by simp, ?_, by simp, by simp, by simp, by simp,
    by omega⟩
  intro j hj
  have hij : i = j := by injection hj
  subst hij
  exact ⟨h0, hi, hs⟩

theorem perCaller_ret_ok {created : Bool} {creates slept : Nat}
    {pcO : OffPC} (hcr : created = true) (hb : creates ≤ 1) :
    PerCaller created (.ret .ok) creates slept pcO :=
  ⟨by simp, by simp, by simp, by simp, fun _ => hcr, by simp,
    by simp, hb⟩

theorem perCaller_ret_timeout {created : Bool} {creates slept : Nat}
    {pcO : OffPC} (h0 : creates = 0) (hs : slept = 5000) :
    PerCaller created (.ret .timeout) creates slept pcO :=
  ⟨by simp, by simp, by simp, by simp, by simp,
    fun _ => ⟨h0, hs⟩, by simp, by omega⟩

theorem perCaller_ret_createFailed {created : Bool} {creates slept : Nat}
    {pcO : OffPC} (hcr : created = false)
    (hpcO : pcO = .entry ∨ (∃ i, pcO = .poll i) ∨ pcO = .ret .timeout)
    (hb : creates ≤ 1) :
    PerCaller created (.ret .createFailed) creates slept pcO :=
  ⟨by simp, by simp, by simp, by simp, by simp, by simp,
    fun _ => ⟨hcr, hpcO⟩, hb⟩

/-- Only the `retCFc` field looks at the other caller's program counter;
re-establish it when that counter changes. -/
theorem PerCaller.mono_pcO {created : Bool} {pc : OffPC}
    {creates slept : Nat} {pcO pcO' : OffPC}
    (h : PerCaller created pc creates slept pcO)
    (hor : pc = .ret .createFailed →
      pcO' = .entry ∨ (∃ i, pcO' = .poll i) ∨ pcO' = .ret .timeout) :
    PerCaller created pc creates slept pcO' :=
  ⟨h.entry0, h.owner1c, h.pollc, h.owner2c, h.retOkc, h.retTOc,
    fun hcf => ⟨(h.retCFc hcf).1, hor hcf⟩, h.boundc⟩

/-- Setting `created` keeps a caller's invariant as long as that caller
has not returned with a creation failure. -/
theorem PerCaller.set_created_true {pc : OffPC} {creates slept : Nat}
    {pcO : OffPC} (h : PerCaller false pc creates slept pcO)
    (hncf : pc ≠ .ret .createFailed) :
    PerCaller true pc creates slept pcO :=
  ⟨h.entry0, h.owner1c, h.pollc, h.owner2c, fun _ => rfl, h.retTOc,
    fun hcf => absurd hcf hncf, h.boundc⟩

/-- One atomic slice of caller A preserves the system invariant. -/
theorem offInv_stepA (env : OffEnv) (s : OffSys) (h : OffInv s) :
    OffInv (offStepA env s) := by
  obtain ⟨flag, excl, ownc, total, cA, cB⟩ := h
  cases hpc : s.pcA with
  | entry =>
      by_cases hret : isRet s.pcB = true
      · rw [show offStepA env s = s from by simp [offStepA, hpc, hret]]
        exact ⟨flag, excl, ownc, total, cA, cB⟩
      · have hretF : isRet s.pcB = false := by simpa using hret
        have hBnotCF : s.pcB ≠ .ret .createFailed := by
          intro hb; rw [hb] at hretF; simp [isRet] at hretF
        by_cases hcr : s.created = true
        · rw [show offStepA env s = { s with pcA := .ret .ok } from by
            simp [offStepA, hpc, hretF, hcr]]
          refine ⟨?_, ?_, ?_, total, ?_, ?_⟩
          · show s.creating = (isOwner (.ret .ok) || isOwner s.pcB)
            rw [flag, hpc]; simp [isOwner]
          · rintro ⟨x, _⟩; simp [isOwner] at x
          · rintro (hx | hy)
            · simp [isOwner] at hx
            · exact ownc (Or.inr hy)
          · exact perCaller_ret_ok hcr cA.boundc
          · exact cB.mono_pcO (fun hcf => absurd hcf hBnotCF)
        · by_cases hcg : s.creating = true
          · rw [show offStepA env s = { s with pcA := .poll 0 } from by
              simp [offStepA, hpc, hretF, hcr, hcg]]
            refine ⟨?_, ?_, ?_, total, ?_, ?_⟩
            · show s.creating = (isOwner (.poll 0) || isOwner s.pcB)
              rw [flag, hpc]; simp [isOwner]
            · rintro ⟨x, _⟩; simp [isOwner] at x
            · rintro (hx | hy)
              · simp [isOwner] at hx
              · exact ownc (Or.inr hy)
            · exact perCaller_poll 0 (cA.entry0 hpc).1 (by omega)
                (by simpa using (cA.entry0 hpc).2)
            · exact cB.mono_pcO (fun hcf => absurd hcf hBnotCF)
          · have hcgF : s.creating = false := by simpa using hcg
            have hBO : isOwner s.pcB = false := by
              rw [hpc] at flag
              simpa [isOwner, hcgF] using flag.symm
            rw [show offStepA env s
                = { s with creating := true, pcA := .owner1 } from by
              simp [offStepA, hpc, hretF, hcr, hcg]]
            refine ⟨?_, ?_, ?_, total, ?_, ?_⟩
            · show true = (isOwner .owner1 || isOwner s.pcB)
              simp [isOwner]
            · rintro ⟨_, y⟩; rw [hBO] at y; cases y
            · intro _; simpa using hcr
            · exact perCaller_owner1 (cA.entry0 hpc).1
            · exact cB.mono_pcO (fun hcf => absurd hcf hBnotCF)
  | poll i =>
      by_cases hcr : s.created = true
      · rw [show offStepA env s
            = { s with pcA := .ret .ok, sleptA := s.sleptA + 100 } from by
          simp [offStepA, hpc, hcr]]
        refine ⟨?_, ?_, ?_, total, ?_, ?_⟩
        · show s.creating = (isOwner (.ret .ok) || isOwner s.pcB)
          rw [flag, hpc]; simp [isOwner]
        · rintro ⟨x, _⟩; simp [isOwner] at x
        · rintro (hx | hy)
          · simp [isOwner] at hx
          · exact ownc (Or.inr hy)
        · exact perCaller_ret_ok hcr cA.boundc
        · exact cB.mono_pcO
            (fun hcf => absurd (cB.retCFc hcf).1 (by simp [hcr]))
      · have hcrF : s.created = false := by simpa using hcr
        obtain ⟨hA0, hile, hslept⟩ := cA.pollc i hpc
        by_cases h50 : i + 1 = 50
        · rw [show offStepA env s
              = { s with pcA := .ret .timeout
                         sleptA := s.sleptA + 100 } from by
            simp [offStepA, hpc, hcr, h50]]
          refine ⟨?_, ?_, ?_, total, ?_, ?_⟩
          · show s.creating = (isOwner (.ret .timeout) || isOwner s.pcB)
            rw [flag, hpc]; simp [isOwner]
          · rintro ⟨x, _⟩; simp [isOwner] at x
          · rintro (hx | hy)
            · simp [isOwner] at hx
            · exact ownc (Or.inr hy)
          · exact perCaller_ret_timeout hA0
              (by show s.sleptA + 100 = 5000; rw [hslept]; omega)
          · exact cB.mono_pcO (fun _ => Or.inr (Or.inr rfl))
        · rw [show offStepA env s
              = { s with pcA := .poll (i + 1)
                         sleptA := s.sleptA + 100 } from by
            simp [offStepA, hpc, hcr, h50]]
          refine ⟨?_, ?_, ?_, total, ?_, ?_⟩
          · show s.creating = (isOwner (.poll (i + 1)) || isOwner s.pcB)
            rw [flag, hpc]; simp [isOwner]
          · rintro ⟨x, _⟩; simp [isOwner] at x
          · rintro (hx | hy)
            · simp [isOwner] at hx
            · exact ownc (Or.inr hy)
          · exact perCaller_poll (i + 1) hA0 (by omega)
              (by show s.sleptA + 100 = (i + 1) * 100; rw [hslept]; ring)
          · exact cB.mono_pcO (fun _ => Or.inr (Or.inl ⟨i + 1, rfl⟩))
  | owner1 =>
      have hAO : isOwner s.pcA = true := by rw [hpc]; rfl
      have hBO : isOwner s.pcB = false := by
        by_cases hb : isOwner s.pcB = true
        · exact absurd ⟨hAO, hb⟩ excl
        · simpa using hb
      have hcrF : s.created = false := ownc (Or.inl hAO)
      have hcg : s.creating = true := by rw [flag, hAO]; rfl
      have hA0 : s.createsA = 0 := cA.owner1c hpc
      have hBnotOk : s.pcB ≠ .ret .ok := fun hb => by
        have hx := cB.retOkc hb; rw [hcrF] at hx; cases hx
      have hBnotCF : s.pcB ≠ .ret .createFailed := fun hb => by
        rcases (cB.retCFc hb).2 with h1 | ⟨j, h2⟩ | h3
        · rw [hpc] at h1; cases h1
        · rw [hpc] at h2; cases h2
        · rw [hpc] at h3; cases h3
      have hB0 : s.createsB = 0 := by
        cases hpcB : s.pcB with
        | entry => exact (cB.entry0 hpcB).1
        | owner1 => rw [hpcB] at hBO; simp [isOwner] at hBO
        | owner2 => rw [hpcB] at hBO; simp [isOwner] at hBO
        | poll j => exact (cB.pollc j hpcB).1
        | ret r =>
            cases r with
            | ok => exact absurd hpcB hBnotOk
            | timeout => exact (cB.retTOc hpcB).1
            | createFailed => exact absurd hpcB hBnotCF
      by_cases hce : env.contextsExist = true
      · rw [show offStepA env s
            = { s with created := true, creating := false
                       pcA := .ret .ok } from by
          simp [offStepA, hpc, hce]]
        refine ⟨?_, ?_, ?_, total, ?_, ?_⟩
        · show false = (isOwner (.ret .ok) || isOwner s.pcB)
          rw [hBO]; rfl
        · rintro ⟨x, _⟩; simp [isOwner] at x
        · rintro (hx | hy)
          · simp [isOwner] at hx
          · rw [hBO] at hy; cases hy
        · exact perCaller_ret_ok rfl cA.boundc
        · exact ((hcrF ▸ cB).set_created_true hBnotCF).mono_pcO
            (fun hcf => absurd hcf hBnotCF)
      · rw [show offStepA env s
            = { s with pcA := .owner2
                       createsA := s.createsA + 1 } from by
          simp [offStepA, hpc, hce]]
        refine ⟨?_, ?_, ?_, ?_, ?_, ?_⟩
        · show s.creating = (isOwner .owner2 || isOwner s.pcB)
          rw [hcg]; simp [isOwner]
        · rintro ⟨_, y⟩; rw [hBO] at y; cases y
        · intro _; exact hcrF
        · show s.createsA + 1 + s.createsB ≤ 1
          omega
        · exact perCaller_owner2 (by show s.createsA + 1 = 1; omega)
        · exact cB.mono_pcO (fun hcf => absurd hcf hBnotCF)
  | owner2 =>
      have hAO : isOwner s.pcA = true := by rw [hpc]; rfl
      have hBO : isOwner s.pcB = false := by
        by_cases hb : isOwner s.pcB = true
        · exact absurd ⟨hAO, hb⟩ excl
        · simpa using hb
      have hcrF : s.created = false := ownc (Or.inl hAO)
      have hBnotOk : s.pcB ≠ .ret .ok := fun hb => by
        have hx := cB.retOkc hb; rw [hcrF] at hx; cases hx
      have hBnotCF : s.pcB ≠ .ret .createFailed := fun hb => by
        rcases (cB.retCFc hb).2 with h1 | ⟨j, h2⟩ | h3
        · rw [hpc] at h1; cases h1
        · rw [hpc] at h2; cases h2
        · rw [hpc] at h3; cases h3
      have hBdisj : s.pcB = .entry ∨ (∃ j, s.pcB = .poll j)
          ∨ s.pcB = .ret .timeout := by
        cases hpcB : s.pcB with
        | entry => exact Or.inl rfl
        | owner1 => rw [hpcB] at hBO; simp [isOwner] at hBO
        | owner2 => rw [hpcB] at hBO; simp [isOwner] at hBO
        | poll j => exact Or.inr (Or.inl ⟨j, rfl⟩)
        | ret r =>
            cases r with
            | ok => exact absurd hpcB hBnotOk
            | timeout => exact Or.inr (Or.inr rfl)
            | createFailed => exact absurd hpcB hBnotCF
      cases hco : env.createOutcome with
      | success =>
          rw [show offStepA env s
              = { s with created := true, creating := false
                         pcA := .ret .ok } from by
            simp [offStepA, hpc, hco]]
          refine ⟨?_, ?_, ?_, total, ?_, ?_⟩
          · show false = (isOwner (.ret .ok) || isOwner s.pcB)
            rw [hBO]; rfl
          · rintro ⟨x, _⟩; simp [isOwner] at x
          · rintro (hx | hy)
            · simp [isOwner] at hx
            · rw [hBO] at hy; cases hy
          · exact perCaller_ret_ok rfl cA.boundc
          · exact ((hcrF ▸ cB).set_created_true hBnotCF).mono_pcO
              (fun hcf => absurd hcf hBnotCF)
      | alreadyExists =>
          rw [show offStepA env s
              = { s with created := true, creating := false
                         pcA := .ret .ok } from by
            simp [offStepA, hpc, hco]]
          refine ⟨?_, ?_, ?_, total, ?_, ?_⟩
          · show false = (isOwner (.ret .ok) || isOwner s.pcB)
            rw [hBO]; rfl
          · rintro ⟨x, _⟩; simp [isOwner] at x
          · rintro (hx | hy)
            · simp [isOwner] at hx
            · rw [hBO] at hy; cases hy
          · exact perCaller_ret_ok rfl cA.boundc
          · exact ((hcrF ▸ cB).set_created_true hBnotCF).mono_pcO
              (fun hcf => absurd hcf hBnotCF)
      | failure =>
          rw [show offStepA env s
              = { s with creating := false
                         pcA := .ret .createFailed } from by
            simp [offStepA, hpc, hco]]
          refine ⟨?_, ?_, ?_, total, ?_, ?_⟩
          · show false = (isOwner (.ret .createFailed) || isOwner s.pcB)
            rw [hBO]; rfl
          · rintro ⟨x, _⟩; simp [isOwner] at x
          · intro _; exact hcrF
          · exact perCaller_ret_createFailed hcrF hBdisj cA.boundc
          · exact cB.mono_pcO (fun hcf => absurd hcf hBnotCF)
  | ret r =>
      rw [show offStepA env s = s from by simp [offStepA, hpc]]
      exact ⟨flag, excl, ownc, total, cA, cB⟩

/-- The invariant holds after any schedule of the two overlapping
calls. -/
theorem offInv_run (envA envB : OffEnv) (sched : List Bool) :
    OffInv (offRun envA envB sched) := by
  suffices hstep : ∀ (l : List Bool) (s : OffSys), OffInv s →
      OffInv (l.foldl (offStep envA envB) s) from
    hstep sched offInit offInv_init
  intro l
  induction l with
  | nil => intro s hs; exact hs
  | cons a l ih =>
      intro s hs
      rw [List.foldl_cons]
      cases a with
      | false =>
          exact ih _ (offInv_swap (offInv_stepA envB (swapSys s)
            (offInv_swap hs)))
      | true => exact ih _ (offInv_stepA envA s hs)

/-- C6: for any interleaving of two overlapping `ensureOffscreenDocument`
calls, at most one `createDocument` side effect happens in total; if both
calls return and neither timed out, both observe the same resolved state
(`ok`, with the document created); and a caller in the wait loop has
slept at most 49·100 ms so far, returning the timeout error exactly when
its 50 polls (5000 ms ≈ 5 s) are exhausted. -/
theorem c6_single_flight_provisioning (envA envB : OffEnv)
    (sched : List Bool) :
    (offRun envA envB sched).createsA
        + (offRun envA envB sched).createsB ≤ 1
    ∧ (∀ rA rB, (offRun envA envB sched).pcA = .ret rA →
        (offRun envA envB sched).pcB = .ret rB →
        rA ≠ .timeout → rB ≠ .timeout →
        rA = .ok ∧ rB = .ok ∧ (offRun envA envB sched).created = true)
    ∧ (∀ i, (offRun envA envB sched).pcA = .poll i →
        (offRun envA envB sched).sleptA ≤ 4900)
    ∧ (∀ i, (offRun envA envB sched).pcB = .poll i →
        (offRun envA envB sched).sleptB ≤ 4900)
    ∧ ((offRun envA envB sched).pcA = .ret .timeout →
        (offRun envA envB sched).sleptA = 5000)
    ∧ ((offRun envA envB sched).pcB = .ret .timeout →
        (offRun envA envB sched).sleptB = 5000) := by
  have h := offInv_run envA envB sched
  refine ⟨h.total, ?_, ?_, ?_,
    fun hto => (h.cA.retTOc hto).2, fun hto => (h.cB.retTOc hto).2⟩
  · intro rA rB hA hB hTA hTB
    have hAok : rA = .ok := by
      cases rA with
      | ok => rfl
      | timeout => exact absurd rfl hTA
      | createFailed =>
          rcases (h.cA.retCFc hA).2 with h1 | ⟨i, h2⟩ | h3
          · rw [hB] at h1; cases h1
          · rw [hB] at h2; cases h2
          · rw [hB] at h3
            have hrb : rB = .timeout := by injection h3
            exact absurd hrb hTB
    have hBok : rB = .ok := by
      cases rB with
      | ok => rfl
      | timeout => exact absurd rfl hTB
      | createFailed =>
          rcases (h.cB.retCFc hB).2 with h1 | ⟨i, h2⟩ | h3
          · rw [hA] at h1; cases h1
          · rw [hA] at h2; cases h2
          · rw [hA] at h3
            have hra : rA = .timeout := by injection h3
            exact absurd hra hTA
    subst hAok
    exact ⟨rfl, hBok, h.cA.retOkc hA⟩
  · intro i hpoll
    obtain ⟨_, hile, hs⟩ := h.cA.pollc i hpoll
    rw [hs]; omega
  · intro i hpoll
    obtain ⟨_, hile, hs⟩ := h.cB.pollc i hpoll
    rw [hs]; omega

/-- Witness for C6: caller A starts provisioning, caller B arrives while
it is in flight and waits; A creates the document (the single creation)
and both callers return `ok` with the document created. -/
theorem c6_single_flight_provisioning_witness :
    (offRun offEnvCreate offEnvCreate
          [true, false, true, true, false]).createsA
        + (offRun offEnvCreate offEnvCreate
            [true, false, true, true, false]).createsB ≤ 1
    ∧ (offRun offEnvCreate offEnvCreate
        [true, false, true, true, false]).created = true := by
  have h := c6_single_flight_provisioning offEnvCreate offEnvCreate
    [true, false, true, true, false]
  exact ⟨h.1, (h.2.1 .ok .ok rfl rfl (by decide) (by decide)).2.2⟩

/-- Witness for C10: with every scroll failing on the sample page, the
response is still `success: true` with a null data URL. -/
theorem c10_response_always_success_witness :
    (captureScreenshotResponse sampleEnvNoScroll (some sampleDims)).success
        = true
      ∧ (captureScreenshotResponse sampleEnvNoScroll
          (some sampleDims)).dataUrl = none := by
  have h := c10_response_always_success sampleEnvNoScroll (some sampleDims)
  refine ⟨h.1, ?_⟩
  exact h.2.2 sampleDims (.scrollFailed 0)
    { pos := 0, events := [], capIdx := 0, resIdx := 1, tiles := [] }
    rfl (by decide) rfl

end Web2PG
